import Mathlib

/-!
Shallow embedding of the Cooking Compass serverless endpoint
(netlify function source: src/compass.js) together with proofs about
the behaviour claimed by its specification.

Modelling conventions:
* JavaScript JSON-ish runtime values are the inductive type JsValue
  (including the non-JSON value undefined, which property access on a
  non-object produces).
* JS strings are Lean String values; the character-level operations
  slice/trim/startsWith are modelled on the underlying character list
  (UTF-16 surrogate pairs are out of scope; every character of interest
  is in the basic plane, where JS code units and characters agree).
* Date.now() is modelled as an explicit natural-number argument now
  (milliseconds).  The JS comparison now - last < windowMs is integer
  arithmetic; over the integers it is equivalent to now < last + windowMs,
  which is the form used here so that all times stay in Nat.
* The rate-limiter Map is modelled as an association list; Map.prototype.set
  is modelled by consing, and Map.prototype.get by the first-match lookup,
  which agrees with JS observations of get after set.
* Thrown-and-caught failures are modelled with Option: none at the point a
  JS expression would throw, and the outer try/catch of the handler turns
  that into the 500 "Server error" response.
* JSON.parse is modelled by an executable recursive-descent parser over the
  character list.  It covers objects, arrays, strings (with the simple
  escapes), integer numbers, true/false/null, and JSON whitespace; number
  fractions/exponents and unicode escapes are not modelled, and no input
  used in any concrete theorem below contains them.
* The outbound fetch to the provider is modelled by a ProviderResp value
  handed to the handler, together with a called flag in the result
  recording whether execution reached the fetch.  The prompt text and the
  provider response envelope unwrapping (choices[0].message.content) are
  elided: the handler receives the extracted content string, which is the
  object all the parsing/sanitizing claims are about.
-/

/-- JavaScript runtime values relevant to the endpoint: the JSON values
plus undefined. -/
inductive JsValue : Type where
  | undefined : JsValue
  | null : JsValue
  | bool : Bool → JsValue
  | num : Int → JsValue
  | str : String → JsValue
  | arr : List JsValue → JsValue
  | obj : List (String × JsValue) → JsValue

/-- JS String.prototype.slice(0, n) at character level. -/
def strTake (s : String) (n : Nat) : String :=
  String.mk (s.data.take n)

/-- JS String.prototype.startsWith(p). -/
def strStartsWith (s p : String) : Bool :=
  p.data.isPrefixOf s.data

/-- JS String.prototype.trim(): strip whitespace from both ends. -/
def strTrim (s : String) : String :=
  String.mk (((s.data.dropWhile Char.isWhitespace).reverse.dropWhile
    Char.isWhitespace).reverse)

mutual

/-- JS String(x) coercion.  Arrays stringify as the comma-join of their
elements with null/undefined elements becoming empty, objects as
"[object Object]". -/
def jsToString : JsValue → String
  | .undefined => "undefined"
  | .null => "null"
  | .bool true => "true"
  | .bool false => "false"
  | .num n => toString n
  | .str s => s
  | .arr l => String.intercalate "," (jsArrElemStrings l)
  | .obj _ => "[object Object]"

/-- Element strings used by Array.prototype.toString (join with ","). -/
def jsArrElemStrings : List JsValue → List String
  | [] => []
  | v :: vs =>
    (match v with
      | .null => ""
      | .undefined => ""
      | w => jsToString w) :: jsArrElemStrings vs

end

/-- JS truthiness of a JsValue (NaN does not occur in this model). -/
def jsTruthy : JsValue → Bool
  | .undefined => false
  | .null => false
  | .bool b => b
  | .num n => n ≠ 0
  | .str s => s ≠ ""
  | .arr _ => true
  | .obj _ => true

/-- src/compass.js lines 15-17:
function safeString(x, max = 800) returns String(x || "").slice(0, max).
If x is falsy then x || "" is "" and the result is ""; otherwise it is
String(x) truncated to max characters. -/
def safeString (x : JsValue) (max : Nat) : String :=
  if jsTruthy x then strTake (jsToString x) max else ""

/-- src/compass.js line 126, the per-entry arrow function
s => s.startsWith("Optional:") ? s : `Optional: ${s}` applied to each
(already length-capped) optional entry. -/
def tagOptional (s : String) : String :=
  if strStartsWith s "Optional:" then s else "Optional: " ++ s

/-- JS property access v[k], as used on the values produced by JSON.parse.
Access on null or undefined throws (none); access on an object looks the
key up with undefined as default; access on any other value yields
undefined (the keys used by the handler are not built-in properties). -/
def jsGetProp : JsValue → String → Option JsValue
  | .undefined, _ => none
  | .null, _ => none
  | .obj fs, k => some ((fs.lookup k).getD .undefined)
  | _, _ => some .undefined

/-- The response schema of the endpoint (the object built at
src/compass.js lines 121-129). -/
structure Recipe : Type where
  title : String
  intro : String
  steps : List String
  optional : List String
  note : String
deriving DecidableEq

/-- src/compass.js line 124: Array.isArray(parsed.steps)
? parsed.steps.slice(0, 8).map(s => safeString(s, 220)) : []. -/
def stepsField (st : JsValue) : List String :=
  match st with
  | .arr l => (l.take 8).map (fun s => safeString s 220)
  | _ => []

/-- src/compass.js lines 125-127: Array.isArray(parsed.optional)
? parsed.optional.slice(0, 5).map(s => safeString(s, 220)).map(tag) : [],
where tag adds the "Optional:" prefix when missing. -/
def optionalField (op : JsValue) : List String :=
  match op with
  | .arr l => ((l.take 5).map (fun s => safeString s 220)).map tagOptional
  | _ => []

/-- The record literal of src/compass.js lines 121-129, as a function of
the five property values read from the parsed object. -/
def buildRecipe (t i st op no : JsValue) : Recipe :=
  { title := safeString t 140
    intro := safeString i 420
    steps := stepsField st
    optional := optionalField op
    note := safeString no 260 }

/-- src/compass.js lines 121-129: build the outgoing object from the
parsed provider value.  The five property reads throw when parsed is
null (modelled by none, which the outer catch turns into status 500);
otherwise every field is built with safeString, steps/optional only from
array values, and each optional entry is tagged. -/
def sanitizeOut (parsed : JsValue) : Option Recipe := do
  let t ← jsGetProp parsed "title"
  let i ← jsGetProp parsed "intro"
  let st ← jsGetProp parsed "steps"
  let op ← jsGetProp parsed "optional"
  let no ← jsGetProp parsed "note"
  some (buildRecipe t i st op no)

/-- The JSON value of the 200 response body (what JSON.stringify of the
out object parses back to): used to express re-sanitizing an
already-sanitized object. -/
def encodeRecipe (r : Recipe) : JsValue :=
  .obj
    [("title", .str r.title),
     ("intro", .str r.intro),
     ("steps", .arr (r.steps.map .str)),
     ("optional", .arr (r.optional.map .str)),
     ("note", .str r.note)]

/-- JSON whitespace characters. -/
def jsonWs (c : Char) : Bool :=
  c = ' ' || c = '\t' || c = '\n' || c = '\r'

/-- JSON string escape characters (unicode escapes are not modelled). -/
def escChar (e : Char) : Option Char :=
  if e = 'n' then some '\n'
  else if e = 't' then some '\t'
  else if e = 'r' then some '\r'
  else if e = 'b' then some (Char.ofNat 8)
  else if e = 'f' then some (Char.ofNat 12)
  else if e = '"' || e = '\\' || e = '/' then some e
  else none

/-- Parse the body of a JSON string literal after the opening quote,
returning the content and the rest after the closing quote. -/
def parseStrBody : List Char → Option (List Char × List Char)
  | [] => none
  | '"' :: rest => some ([], rest)
  | '\\' :: e :: rest =>
    (match escChar e with
      | some ec => (parseStrBody rest).map (fun p => (ec :: p.1, p.2))
      | none => none)
  | c :: rest =>
    if c.val < 32 then none
    else (parseStrBody rest).map (fun p => (c :: p.1, p.2))

/-- Numeric value of a digit list. -/
def digitsToNat (ds : List Char) : Nat :=
  ds.foldl (fun a c => a * 10 + (c.toNat - 48)) 0

/-- Parse a JSON integer's digits (leading zeros are rejected as in JSON;
fractions and exponents are outside this model and rejected). -/
def parseNatDigits (cs : List Char) : Option (Nat × List Char) :=
  let ds := cs.takeWhile Char.isDigit
  let rest := cs.dropWhile Char.isDigit
  if ds = [] then none
  else if ds.head? = some '0' && ds.length > 1 then none
  else
    match rest with
    | '.' :: _ => none
    | 'e' :: _ => none
    | 'E' :: _ => none
    | _ => some (digitsToNat ds, rest)

/-- Parse a JSON number (integer form). -/
def parseNum (cs : List Char) : Option (JsValue × List Char) :=
  match cs with
  | '-' :: rest =>
    (match parseNatDigits rest with
      | some (n, r) => some (.num (-(n : Int)), r)
      | none => none)
  | _ =>
    match parseNatDigits cs with
    | some (n, r) => some (.num (n : Int), r)
    | none => none

/-- Parse the comma-separated items of a non-empty JSON array up to the
closing bracket, given a parser pv for one value. -/
def parseListAux (pv : List Char → Option (JsValue × List Char)) :
    Nat → List Char → Option (List JsValue × List Char)
  | 0, _ => none
  | fuel + 1, cs =>
    match pv cs with
    | none => none
    | some (v, rest) =>
      match rest.dropWhile jsonWs with
      | ',' :: rest2 =>
        (match parseListAux pv fuel rest2 with
          | some (vs, r) => some (v :: vs, r)
          | none => none)
      | ']' :: rest2 => some ([v], rest2)
      | _ => none

/-- Parse the members of a non-empty JSON object up to the closing brace,
given a parser pv for one value. -/
def parseMembersAux (pv : List Char → Option (JsValue × List Char)) :
    Nat → List Char → Option (List (String × JsValue) × List Char)
  | 0, _ => none
  | fuel + 1, cs =>
    match cs with
    | '"' :: rest =>
      (match parseStrBody rest with
        | none => none
        | some (k, rest2) =>
          match rest2.dropWhile jsonWs with
          | ':' :: rest3 =>
            (match pv rest3 with
              | none => none
              | some (v, rest4) =>
                match rest4.dropWhile jsonWs with
                | ',' :: rest5 =>
                  (match parseMembersAux pv fuel (rest5.dropWhile jsonWs) with
                    | some (ms, r) => some ((String.mk k, v) :: ms, r)
                    | none => none)
                | '}' :: rest5 => some ([(String.mk k, v)], rest5)
                | _ => none)
          | _ => none)
    | _ => none

/-- Fuel-indexed JSON value parser (recursive descent). -/
def parseVal : Nat → List Char → Option (JsValue × List Char)
  | 0, _ => none
  | fuel + 1, cs =>
    match cs.dropWhile jsonWs with
    | [] => none
    | 'n' :: rest =>
      if rest.take 3 = ['u', 'l', 'l'] then some (.null, rest.drop 3)
      else none
    | 't' :: rest =>
      if rest.take 3 = ['r', 'u', 'e'] then some (.bool true, rest.drop 3)
      else none
    | 'f' :: rest =>
      if rest.take 4 = ['a', 'l', 's', 'e'] then some (.bool false, rest.drop 4)
      else none
    | '"' :: rest => (parseStrBody rest).map (fun p => (.str (String.mk p.1), p.2))
    | '[' :: rest =>
      (match rest.dropWhile jsonWs with
        | ']' :: rest2 => some (.arr [], rest2)
        | cs2 => (parseListAux (parseVal fuel) fuel cs2).map (fun p => (.arr p.1, p.2)))
    | '{' :: rest =>
      (match rest.dropWhile jsonWs with
        | '}' :: rest2 => some (.obj [], rest2)
        | cs2 => (parseMembersAux (parseVal fuel) fuel cs2).map (fun p => (.obj p.1, p.2)))
    | c :: rest => if c = '-' || c.isDigit then parseNum (c :: rest) else none

/-- JSON.parse: parse one value and require only whitespace to remain.
Succeeding with some v models a normal return, none models a thrown
SyntaxError. -/
def jsonParse (s : String) : Option JsValue :=
  match parseVal (s.data.length + 2) s.data with
  | some (v, rest) => if rest.dropWhile jsonWs = [] then some v else none
  | none => none

/-- src/compass.js line 116: text.match of the pattern "brace, anything,
brace at end of input".  The (greedy, leftmost) match exists exactly when
the text contains a left brace and its final character is a right brace,
and it then spans from the first left brace to the end. -/
def extractFallback (text : String) : Option String :=
  let d := text.data
  if d.contains '{' && d.getLast? == some '}' then
    some (String.mk (d.drop (d.indexOf '{')))
  else none

/-- src/compass.js lines 112-119: direct JSON.parse of the trimmed content,
else JSON.parse of the regex match; none models the thrown error (missing
match, or parse failure of the match) that the outer catch turns into 500. -/
def parseContent (text : String) : Option JsValue :=
  match jsonParse text with
  | some v => some v
  | none =>
    match extractFallback text with
    | some m => jsonParse m
    | none => none

/-- The per-process rate limiter state (src/compass.js line 5):
client id to last-accepted Date.now() timestamp. -/
abbrev RecentMap : Type := List (String × Nat)

/-- src/compass.js lines 7-13: function rateLimit(ip, windowMs = 2500).
last is recent.get(ip) || 0, i.e. 0 when the id is absent; the JS test
now - last < windowMs is the integer comparison now < last + windowMs.
Returns the allow decision and the (possibly updated) map. -/
def rateLimit (ip : String) (windowMs now : Nat) (recent : RecentMap) :
    Bool × RecentMap :=
  let last := (List.lookup ip recent).getD 0
  if now < last + windowMs then (false, recent)
  else (true, (ip, now) :: recent)

/-- JS a || b for a nullable string a: b when a is null/absent or empty. -/
def strOr (a : Option String) (b : String) : String :=
  match a with
  | some s => if s = "" then b else s
  | none => b

/-- JS s || b for a plain string s. -/
def strFalsyOr (s b : String) : String :=
  if s = "" then b else s

/-- JS !x for the environment variable: true when absent or empty. -/
def jsFalsyStr : Option String → Bool
  | none => true
  | some s => s == ""

/-- Outcome of the outbound fetch, as far as the handler observes it:
resp.ok, the error text read on failure (already with the .catch fallback
of line 105 applied upstream of the || default), and the extracted
choices[0].message.content string of a success envelope. -/
structure ProviderResp : Type where
  ok : Bool
  errText : String
  content : String

/-- Body of the HTTP response returned by the handler: plain text, or the
sanitized recipe object serialized as JSON on the 200 path. -/
inductive RespBody : Type where
  | text : String → RespBody
  | json : Recipe → RespBody
deriving DecidableEq

/-- Observable outcome of one handler invocation: HTTP status, body, the
rate limiter map after the request, and whether the outbound provider
call was made. -/
structure HandlerOut : Type where
  status : Nat
  body : RespBody
  recent : RecentMap
  called : Bool

/-- src/compass.js lines 19-139, the exported request handler.
Explicit arguments stand for the request method, the two client-address
headers (null/absent modelled as none), Date.now(), the result of parsing
the request body (none when req.json() rejects, which line 34 catches
into an empty object), the OPENAI_API_KEY environment variable, the
provider interaction, and the current rate-limiter map. -/
def handler (method : String) (hci hxff : Option String) (now : Nat)
    (reqBody : Option JsValue) (apiKey : Option String) (resp : ProviderResp)
    (recent : RecentMap) : HandlerOut :=
  if method ≠ "POST" then
    { status := 405, body := .text "Method Not Allowed", recent := recent,
      called := false }
  else
    let ip := strOr hci (strOr hxff "unknown")
    let rl := rateLimit ip 2500 now recent
    if rl.1 = false then
      { status := 429, body := .text "Too many requests. Please slow down.",
        recent := rl.2, called := false }
    else
      match jsGetProp (reqBody.getD (.obj [])) "ingredients" with
      | none =>
        { status := 500, body := .text "Server error", recent := rl.2,
          called := false }
      | some ing =>
        let userInput := strTrim (safeString ing 700)
        if userInput = "" then
          { status := 400, body := .text "Missing ingredients", recent := rl.2,
            called := false }
        else if jsFalsyStr apiKey then
          { status := 500, body := .text "Server missing OPENAI_API_KEY",
            recent := rl.2, called := false }
        else if resp.ok = false then
          { status := 502, body := .text (strFalsyOr resp.errText "OpenAI request failed"),
            recent := rl.2, called := true }
        else
          match parseContent (strTrim resp.content) with
          | none =>
            { status := 500, body := .text "Server error", recent := rl.2,
              called := true }
          | some parsed =>
            match sanitizeOut parsed with
            | none =>
              { status := 500, body := .text "Server error", recent := rl.2,
                called := true }
            | some out =>
              { status := 200, body := .json out, recent := rl.2, called := true }

/-- Whether a JsValue is an array (Array.isArray). -/
def isArr : JsValue → Bool
  | .arr _ => true
  | _ => false

/-- Whether a JsValue is a primitive JSON literal (number, string or
boolean). -/
def isPrimLit : JsValue → Bool
  | .num _ => true
  | .str _ => true
  | .bool _ => true
  | _ => false

/-- A string of n letters a, used for concrete boundary inputs. -/
def aChars (n : Nat) : String :=
  String.mk (List.replicate n 'a')

/-! ## Helper lemmas -/

theorem strData_append (a b : String) : (a ++ b).data = a.data ++ b.data := by
  cases a; cases b; rfl

theorem strMk_data (s : String) : String.mk s.data = s := by
  cases s; rfl

theorem strTake_length (s : String) (n : Nat) : (strTake s n).length ≤ n := by
  show (s.data.take n).length ≤ n
  simp

theorem strTake_of_le (s : String) (n : Nat) (h : s.length ≤ n) :
    strTake s n = s := by
  show String.mk (s.data.take n) = s
  rw [List.take_of_length_le h, strMk_data]

theorem safeString_length (x : JsValue) (n : Nat) :
    (safeString x n).length ≤ n := by
  unfold safeString
  split
  · exact strTake_length _ n
  · simp [String.length]

theorem safeString_str_of_le (s : String) (n : Nat) (h : s.length ≤ n) :
    safeString (.str s) n = s := by
  unfold safeString
  by_cases hs : s = ""
  · subst hs; simp [jsTruthy]
  · simp only [jsTruthy, jsToString]
    rw [if_pos (by simpa using hs)]
    exact strTake_of_le s n h

theorem tagOptional_of_tagged (s : String)
    (h : strStartsWith s "Optional:" = true) : tagOptional s = s := by
  simp [tagOptional, h]

theorem tagOptional_of_untagged (s : String)
    (h : strStartsWith s "Optional:" = false) :
    tagOptional s = "Optional: " ++ s := by
  simp [tagOptional, h]

theorem optionalSpace_data :
    ("Optional: " : String).data = ("Optional:" : String).data ++ [' '] := rfl

theorem tagOptional_startsWith (s : String) :
    strStartsWith (tagOptional s) "Optional:" = true := by
  unfold tagOptional
  split
  · assumption
  · show (("Optional:" : String).data).isPrefixOf ("Optional: " ++ s).data = true
    rw [strData_append, optionalSpace_data, List.append_assoc,
      List.isPrefixOf_iff_prefix]
    exact List.prefix_append _ _

theorem tagOptional_length (s : String) :
    (tagOptional s).length ≤ s.length + 10 := by
  unfold tagOptional
  split
  · omega
  · show ("Optional: " ++ s).data.length ≤ s.data.length + 10
    rw [strData_append]
    simp [List.length_append]

theorem tagOptional_idem (s : String) :
    tagOptional (tagOptional s) = tagOptional s :=
  tagOptional_of_tagged _ (tagOptional_startsWith s)

/-! ## Claim theorems -/

/-- Unfolding of rateLimit into its decision form. -/
theorem rateLimit_pair (ip : String) (w now : Nat) (m : RecentMap) :
    rateLimit ip w now m =
      if now < (List.lookup ip m).getD 0 + w then (false, m)
      else (true, (ip, now) :: m) := rfl

theorem rateLimit_fst_iff (ip : String) (w now : Nat) (m : RecentMap) :
    (rateLimit ip w now m).1 = true ↔ (List.lookup ip m).getD 0 + w ≤ now := by
  rw [rateLimit_pair]
  split_ifs with hc
  · simp
    omega
  · simp
    omega

theorem rateLimit_snd_true (ip : String) (w now : Nat) (m : RecentMap)
    (h : (rateLimit ip w now m).1 = true) :
    (rateLimit ip w now m).2 = (ip, now) :: m := by
  rw [rateLimit_pair] at h ⊢
  split_ifs at h ⊢
  rfl

theorem rateLimit_snd_false (ip : String) (w now : Nat) (m : RecentMap)
    (h : (rateLimit ip w now m).1 = false) :
    (rateLimit ip w now m).2 = m := by
  rw [rateLimit_pair] at h ⊢
  split_ifs at h ⊢
  rfl

/-- Claim C1: for every client identifier, under the environment fact that
the clock value is at least the window (Date.now() is milliseconds since
1970, far above 2500), rateLimit allows a request iff no timestamp is
recorded for the identifier or the current time minus the recorded
timestamp is at least the window; on an allowed request it records the
current time, on a denied request it leaves the map unchanged; a second
request from the same identifier within the window of an accepted one is
denied, and two accepted requests are separated by at least the window. -/
theorem rateLimit_cooldown_spec (ip : String) (w now now2 : Nat)
    (m : RecentMap) (h : w ≤ now) :
    ((rateLimit ip w now m).1 = true ↔
      (List.lookup ip m = none ∨ ∃ t, List.lookup ip m = some t ∧ t + w ≤ now))
    ∧ ((rateLimit ip w now m).1 = true →
        (rateLimit ip w now m).2 = (ip, now) :: m)
    ∧ ((rateLimit ip w now m).1 = false → (rateLimit ip w now m).2 = m)
    ∧ ((rateLimit ip w now m).1 = true → now2 < now + w →
        (rateLimit ip w now2 ((rateLimit ip w now m).2)).1 = false)
    ∧ ((rateLimit ip w now m).1 = true →
        (rateLimit ip w now2 ((rateLimit ip w now m).2)).1 = true →
        now + w ≤ now2) := by
  have hself : List.lookup ip ((ip, now) :: m) = some now := by
    simp [List.lookup]
  refine ⟨?_, rateLimit_snd_true ip w now m, rateLimit_snd_false ip w now m,
    ?_, ?_⟩
  · rw [rateLimit_fst_iff]
    rcases hl : List.lookup ip m with _ | t
    · simp only [Option.getD_none]
      exact ⟨fun _ => Or.inl (by simp), fun _ => by omega⟩
    · simp only [Option.getD_some]
      constructor
      · intro hle
        exact Or.inr ⟨t, rfl, hle⟩
      · rintro (hc | ⟨t2, ht2, hle⟩)
        · cases hc
        · injection ht2 with e
          omega
  · intro htrue hsoon
    rw [rateLimit_snd_true ip w now m htrue, rateLimit_pair, hself]
    simp only [Option.getD_some]
    rw [if_pos hsoon]
  · intro htrue h2
    rw [rateLimit_snd_true ip w now m htrue, rateLimit_fst_iff, hself] at h2
    simpa using h2

/-- Witness for C1 at a concrete input: at time 5000 with an empty map a
request from client "1.2.3.4" is accepted, and a second request at time
6000 (within the 2500 ms window) is denied. -/
theorem rateLimit_cooldown_spec_witness :
    (rateLimit "1.2.3.4" 2500 6000
      ((rateLimit "1.2.3.4" 2500 5000 ([] : RecentMap)).2)).1 = false :=
  (rateLimit_cooldown_spec "1.2.3.4" 2500 5000 6000 [] (by decide)).2.2.2.1
    (by decide) (by decide)

/-- Counterexample to C5 as stated: the number 0 is neither absent nor
null nor undefined, its string representation is "0", yet safeString
maps it to the empty string (JS x || "" treats every falsy value alike). -/
theorem safeString_zero_cex :
    safeString (.num 0) 800 = "" ∧ jsToString (.num 0) = "0" ∧
      strTake (jsToString (.num 0)) 800 = "0" := by
  refine ⟨rfl, rfl, rfl⟩

/-- Claim C5 (amended): safeString is total and returns the empty string
exactly on the falsy inputs (undefined, null, false, the number 0 and the
empty string); on every truthy input it returns the string representation
truncated to maxLength, and the result never exceeds maxLength. -/
theorem safeString_spec (x : JsValue) (n : Nat) :
    (jsTruthy x = false → safeString x n = "")
    ∧ (jsTruthy x = true → safeString x n = strTake (jsToString x) n)
    ∧ (jsTruthy x = false ↔
        (x = .undefined ∨ x = .null ∨ x = .bool false ∨ x = .num 0 ∨ x = .str ""))
    ∧ (safeString x n).length ≤ n := by
  refine ⟨?_, ?_, ?_, safeString_length x n⟩
  · intro hf
    simp [safeString, hf]
  · intro ht
    simp [safeString, ht]
  · cases x with
    | undefined => simp [jsTruthy]
    | null => simp [jsTruthy]
    | bool b => cases b <;> simp [jsTruthy]
    | num k => simp [jsTruthy]
    | str s => simp [jsTruthy]
    | arr l => simp [jsTruthy]
    | obj fs => simp [jsTruthy]

/-- Witness for C5 at concrete inputs: a truthy string is truncated to
its first maxLength characters, and null maps to the empty string. -/
theorem safeString_spec_witness :
    safeString (.str "abcd") 2 = strTake (jsToString (.str "abcd")) 2 ∧
      safeString .null 800 = "" :=
  ⟨(safeString_spec (.str "abcd") 2).2.1 (by decide),
   (safeString_spec .null 800).1 (by decide)⟩

/-- Claim C6: the per-entry prefixing step of the output sanitizer leaves
a string already beginning with "Optional:" unchanged, prepends
"Optional: " to a string lacking the prefix, always yields a string
beginning with "Optional:", and never stacks a second prefix (it is
idempotent). -/
theorem tagOptional_spec (s : String) :
    (strStartsWith s "Optional:" = true → tagOptional s = s)
    ∧ (strStartsWith s "Optional:" = false →
        tagOptional s = "Optional: " ++ s)
    ∧ strStartsWith (tagOptional s) "Optional:" = true
    ∧ tagOptional (tagOptional s) = tagOptional s :=
  ⟨tagOptional_of_tagged s, tagOptional_of_untagged s,
   tagOptional_startsWith s, tagOptional_idem s⟩

/-- Witness for C6 at concrete inputs: an untagged entry gains the prefix,
an already tagged entry is unchanged. -/
theorem tagOptional_spec_witness :
    tagOptional "garlic if you have it" = "Optional: garlic if you have it" ∧
      tagOptional "Optional: garlic" = "Optional: garlic" :=
  ⟨by
    rw [(tagOptional_spec "garlic if you have it").2.1 (by decide)]
    decide,
   (tagOptional_spec "Optional: garlic").1 (by decide)⟩

theorem sanitizeOut_shape (v : JsValue) (r : Recipe)
    (h : sanitizeOut v = some r) :
    r = buildRecipe ((jsGetProp v "title").getD .undefined)
      ((jsGetProp v "intro").getD .undefined) ((jsGetProp v "steps").getD .undefined)
      ((jsGetProp v "optional").getD .undefined)
      ((jsGetProp v "note").getD .undefined) := by
  cases v with
  | undefined => exact absurd h (by simp [sanitizeOut, jsGetProp])
  | null => exact absurd h (by simp [sanitizeOut, jsGetProp])
  | bool b => exact (Option.some.inj h).symm
  | num k => exact (Option.some.inj h).symm
  | str s => exact (Option.some.inj h).symm
  | arr l => exact (Option.some.inj h).symm
  | obj fs => exact (Option.some.inj h).symm

theorem stepsField_length (st : JsValue) : (stepsField st).length ≤ 8 := by
  cases st <;> simp [stepsField]

theorem stepsField_entry (st : JsValue) :
    ∀ s ∈ stepsField st, s.length ≤ 220 := by
  intro s hs
  cases st with
  | arr l =>
    simp only [stepsField] at hs
    rcases List.mem_map.mp hs with ⟨a, _, he⟩
    exact he ▸ safeString_length a 220
  | undefined => simp [stepsField] at hs
  | null => simp [stepsField] at hs
  | bool b => simp [stepsField] at hs
  | num k => simp [stepsField] at hs
  | str t => simp [stepsField] at hs
  | obj fs => simp [stepsField] at hs

theorem stepsField_of_not_arr (st : JsValue) (h : isArr st = false) :
    stepsField st = [] := by
  cases st <;> first
    | rfl
    | exact absurd h (by simp [isArr])

theorem optionalField_length (op : JsValue) :
    (optionalField op).length ≤ 5 := by
  cases op <;> simp [optionalField]

theorem optionalField_entry (op : JsValue) :
    ∀ s ∈ optionalField op,
      s.length ≤ 230 ∧ strStartsWith s "Optional:" = true := by
  intro s hs
  cases op with
  | arr l =>
    simp only [optionalField] at hs
    rcases List.mem_map.mp hs with ⟨a, ha, he⟩
    rcases List.mem_map.mp ha with ⟨b, _, hb⟩
    have h1 := tagOptional_length a
    have h2 : a.length ≤ 220 := hb ▸ safeString_length b 220
    constructor
    · rw [← he]
      omega
    · rw [← he]
      exact tagOptional_startsWith a
  | undefined => simp [optionalField] at hs
  | null => simp [optionalField] at hs
  | bool b => simp [optionalField] at hs
  | num k => simp [optionalField] at hs
  | str t => simp [optionalField] at hs
  | obj fs => simp [optionalField] at hs

theorem optionalField_of_not_arr (op : JsValue) (h : isArr op = false) :
    optionalField op = [] := by
  cases op <;> first
    | rfl
    | exact absurd h (by simp [isArr])

/-- Counterexample to C2 as stated: a parsed object whose optional array
holds one untagged 211-character entry produces an optional entry of 221
characters, because the length cap of 220 is applied before the 10
character "Optional: " prefix is prepended; so optional entries are not
bounded by 220 characters. -/
theorem sanitizeOut_optional_cap_cex :
    (sanitizeOut (.obj [("optional", .arr [.str (aChars 211)])])).map
        (fun r => r.optional.map (fun s => s.length)) = some [221] ∧
      (sanitizeOut (.obj [("optional", .arr [.str (aChars 211)])])).map
        (fun r => r.optional.map (fun s => strStartsWith s "Optional:")) =
        some [true] := by
  constructor <;> rfl

/-- Claim C2 (amended): every sanitized 200 body has exactly the five
fields of the Recipe schema, with title at most 140 characters, intro at
most 420, note at most 260, steps at most 8 entries of at most 220
characters each, optional at most 5 entries each beginning with
"Optional:" and of at most 230 characters (not 220: the cap is applied
before prefixing, so the prefix may push an entry to 230); when the
parsed value is an object, an absent title/intro/note yields the empty
string and an absent or non-array steps/optional yields the empty
sequence. -/
theorem sanitizeOut_schema_bounds (v : JsValue) (r : Recipe)
    (h : sanitizeOut v = some r) :
    r.title.length ≤ 140 ∧ r.intro.length ≤ 420 ∧ r.note.length ≤ 260
    ∧ r.steps.length ≤ 8 ∧ (∀ s ∈ r.steps, s.length ≤ 220)
    ∧ r.optional.length ≤ 5
    ∧ (∀ s ∈ r.optional, s.length ≤ 230 ∧ strStartsWith s "Optional:" = true)
    ∧ (∀ fs, v = .obj fs →
        (fs.lookup "title" = none → r.title = "")
        ∧ (fs.lookup "intro" = none → r.intro = "")
        ∧ (fs.lookup "note" = none → r.note = "")
        ∧ (fs.lookup "steps" = none → r.steps = [])
        ∧ (∀ st, fs.lookup "steps" = some st → isArr st = false →
            r.steps = [])
        ∧ (fs.lookup "optional" = none → r.optional = [])
        ∧ (∀ op, fs.lookup "optional" = some op → isArr op = false →
            r.optional = [])) := by
  have hshape := sanitizeOut_shape v r h
  have ht : r.title = safeString ((jsGetProp v "title").getD .undefined) 140 := by
    rw [hshape]; rfl
  have hi : r.intro = safeString ((jsGetProp v "intro").getD .undefined) 420 := by
    rw [hshape]; rfl
  have hn : r.note = safeString ((jsGetProp v "note").getD .undefined) 260 := by
    rw [hshape]; rfl
  have hst : r.steps = stepsField ((jsGetProp v "steps").getD .undefined) := by
    rw [hshape]; rfl
  have hop : r.optional =
      optionalField ((jsGetProp v "optional").getD .undefined) := by
    rw [hshape]; rfl
  refine ⟨ht ▸ safeString_length _ 140, hi ▸ safeString_length _ 420,
    hn ▸ safeString_length _ 260, hst ▸ stepsField_length _,
    hst ▸ stepsField_entry _, hop ▸ optionalField_length _,
    hop ▸ optionalField_entry _, ?_⟩
  intro fs hv
  subst hv
  refine ⟨?_, ?_, ?_, ?_, ?_, ?_, ?_⟩
  · intro hnone
    rw [ht]
    simp [jsGetProp, hnone, safeString, jsTruthy]
  · intro hnone
    rw [hi]
    simp [jsGetProp, hnone, safeString, jsTruthy]
  · intro hnone
    rw [hn]
    simp [jsGetProp, hnone, safeString, jsTruthy]
  · intro hnone
    rw [hst]
    simp [jsGetProp, hnone, stepsField]
  · intro st hsome hna
    rw [hst]
    simp only [jsGetProp, Option.getD_some, hsome]
    exact stepsField_of_not_arr st hna
  · intro hnone
    rw [hop]
    simp [jsGetProp, hnone, optionalField]
  · intro op hsome hna
    rw [hop]
    simp only [jsGetProp, Option.getD_some, hsome]
    exact optionalField_of_not_arr op hna

/-- Witness for C2 at a concrete input: sanitizing an object carrying one
short optional entry satisfies the bound conclusions. -/
theorem sanitizeOut_schema_bounds_witness :
    (buildRecipe .undefined .undefined .undefined (.arr [.str "x"]) .undefined).title.length
        ≤ 140 ∧
      (buildRecipe .undefined .undefined .undefined (.arr [.str "x"]) .undefined).optional.length
        ≤ 5 :=
  let h := sanitizeOut_schema_bounds (.obj [("optional", .arr [.str "x"])])
    (buildRecipe .undefined .undefined .undefined (.arr [.str "x"]) .undefined) rfl
  ⟨h.1, h.2.2.2.2.2.1⟩

set_option maxRecDepth 4000 in
/-- Counterexample to C7 as stated: sanitizing the sanitized output again
is not the identity.  With one untagged 211-character optional entry the
first pass produces a 221-character entry (cap, then prefix), and the
second pass truncates it to 220 characters, a different object. -/
theorem sanitizeOut_not_idempotent_cex :
    ((sanitizeOut (.obj [("optional", .arr [.str (aChars 211)])])).bind
        (fun r => sanitizeOut (encodeRecipe r))) ≠
      sanitizeOut (.obj [("optional", .arr [.str (aChars 211)])]) := by
  decide

/-- Claim C7 (amended): re-sanitizing a sanitized object is the identity
provided every optional entry of the first output is at most 220
characters; without that proviso idempotence fails, because a first-pass
optional entry may reach 230 characters (cap before prefix) and is then
truncated again by the second pass. -/
theorem sanitizeOut_idempotent_bounded (v : JsValue) (r : Recipe)
    (h : sanitizeOut v = some r)
    (hb : ∀ s ∈ r.optional, s.length ≤ 220) :
    sanitizeOut (encodeRecipe r) = some r := by
  have bounds := sanitizeOut_schema_bounds v r h
  have key : sanitizeOut (encodeRecipe r) =
      some (buildRecipe (.str r.title) (.str r.intro)
        (.arr (r.steps.map .str)) (.arr (r.optional.map .str))
        (.str r.note)) := rfl
  have e1 : safeString (.str r.title) 140 = r.title :=
    safeString_str_of_le _ _ bounds.1
  have e2 : safeString (.str r.intro) 420 = r.intro :=
    safeString_str_of_le _ _ bounds.2.1
  have e3 : safeString (.str r.note) 260 = r.note :=
    safeString_str_of_le _ _ bounds.2.2.1
  have e4 : stepsField (.arr (r.steps.map .str)) = r.steps := by
    simp only [stepsField]
    rw [List.take_of_length_le (by simpa using bounds.2.2.2.1), List.map_map]
    have hmap : ∀ x ∈ r.steps,
        ((fun s => safeString s 220) ∘ JsValue.str) x = id x := fun x hx =>
      safeString_str_of_le x 220 (bounds.2.2.2.2.1 x hx)
    rw [List.map_congr_left hmap, List.map_id]
  have e5 : optionalField (.arr (r.optional.map .str)) = r.optional := by
    simp only [optionalField]
    rw [List.take_of_length_le (by simpa using bounds.2.2.2.2.2.1),
      List.map_map, List.map_map]
    have hmap : ∀ x ∈ r.optional,
        ((tagOptional ∘ fun s => safeString s 220) ∘ JsValue.str) x =
          id x := by
      intro x hx
      have hx220 : safeString (.str x) 220 = x :=
        safeString_str_of_le x 220 (hb x hx)
      show tagOptional (safeString (.str x) 220) = x
      rw [hx220]
      exact tagOptional_of_tagged x (bounds.2.2.2.2.2.2.1 x hx).2
    rw [List.map_congr_left hmap, List.map_id]
  rw [key]
  simp only [buildRecipe, e1, e2, e3, e4, e5]

/-- Witness for C7 at a concrete input: one short optional entry, whose
sanitized form re-sanitizes to itself. -/
theorem sanitizeOut_idempotent_bounded_witness :
    sanitizeOut (encodeRecipe
        (buildRecipe .undefined .undefined .undefined (.arr [.str "x"]) .undefined)) =
      some (buildRecipe .undefined .undefined .undefined (.arr [.str "x"]) .undefined) :=
  sanitizeOut_idempotent_bounded (.obj [("optional", .arr [.str "x"])])
    (buildRecipe .undefined .undefined .undefined (.arr [.str "x"]) .undefined) rfl (by decide)

/-- Claim C8: any non-POST request yields status 405 with the fixed plain
text body, leaves the rate-limiter map exactly as it was, and performs no
outbound call; the result does not depend on the time, headers, body,
credentials or provider (they do not occur in the right-hand side). -/
theorem handler_non_post_405 (method : String) (hci hxff : Option String)
    (now : Nat) (b : Option JsValue) (k : Option String) (r : ProviderResp)
    (m : RecentMap) (h : method ≠ "POST") :
    handler method hci hxff now b k r m =
      { status := 405, body := .text "Method Not Allowed", recent := m,
        called := false } := by
  simp [handler, h]

/-- Witness for C8 at a concrete input: a GET request is answered 405
with the map untouched. -/
theorem handler_non_post_405_witness :
    handler "GET" (some "1.2.3.4") none 5000 none (some "k")
        ⟨true, "", ""⟩ [("1.2.3.4", 1)] =
      { status := 405, body := .text "Method Not Allowed",
        recent := [("1.2.3.4", 1)], called := false } :=
  handler_non_post_405 "GET" (some "1.2.3.4") none 5000 none (some "k")
    ⟨true, "", ""⟩ [("1.2.3.4", 1)] (by decide)

/-- Once the rate limiter has allowed a POST request, every further
outcome of the handler leaves the limiter map updated with the arrival
time of this request. -/
theorem handler_recent_after_allowed (hci hxff : Option String) (now : Nat)
    (b : Option JsValue) (k : Option String) (r : ProviderResp)
    (m : RecentMap)
    (hallow : (rateLimit (strOr hci (strOr hxff "unknown")) 2500 now m).1 =
      true) :
    (handler "POST" hci hxff now b k r m).recent =
      (strOr hci (strOr hxff "unknown"), now) :: m := by
  have hupd := rateLimit_snd_true _ 2500 now m hallow
  simp only [handler]
  rw [if_neg (by simp)]
  simp only [hallow]
  rw [if_neg (by simp)]
  repeat' split
  all_goals exact hupd

/-- Claim C9: a POST request that passes the rate limit and then ends in
an error status (400, 500 or 502) has nevertheless stamped the client's
timestamp with its arrival time, so a follow-up request from the same
client within the 2500 ms window is denied with 429 although no recipe
was served. -/
theorem handler_error_keeps_limiter (hci hxff : Option String)
    (now now2 : Nat) (b b2 : Option JsValue) (k k2 : Option String)
    (r r2 : ProviderResp) (m : RecentMap)
    (hallow : (rateLimit (strOr hci (strOr hxff "unknown")) 2500 now m).1 =
      true)
    (_herr : (handler "POST" hci hxff now b k r m).status = 400 ∨
      (handler "POST" hci hxff now b k r m).status = 500 ∨
      (handler "POST" hci hxff now b k r m).status = 502)
    (hsoon : now2 < now + 2500) :
    List.lookup (strOr hci (strOr hxff "unknown"))
        (handler "POST" hci hxff now b k r m).recent = some now
    ∧ (handler "POST" hci hxff now2 b2 k2 r2
        (handler "POST" hci hxff now b k r m).recent).status = 429 := by
  have hrec := handler_recent_after_allowed hci hxff now b k r m hallow
  have hd : (rateLimit (strOr hci (strOr hxff "unknown")) 2500 now2
      ((strOr hci (strOr hxff "unknown"), now) :: m)).1 = false := by
    rw [rateLimit_pair]
    rw [show List.lookup (strOr hci (strOr hxff "unknown"))
        ((strOr hci (strOr hxff "unknown"), now) :: m) = some now from by
      simp [List.lookup]]
    simp only [Option.getD_some]
    rw [if_pos hsoon]
  constructor
  · rw [hrec]
    simp [List.lookup]
  · rw [hrec]
    simp [handler, hd]

/-- Witness for C9 at a concrete input: a POST without ingredients is
answered 400, yet a retry 1000 ms later is answered 429. -/
theorem handler_error_keeps_limiter_witness :
    List.lookup "9.9.9.9"
        (handler "POST" (some "9.9.9.9") none 5000 (some (.obj []))
          (some "k") ⟨true, "", ""⟩ []).recent = some 5000
    ∧ (handler "POST" (some "9.9.9.9") none 6000 (some (.obj []))
        (some "k") ⟨true, "", ""⟩
        (handler "POST" (some "9.9.9.9") none 5000 (some (.obj []))
          (some "k") ⟨true, "", ""⟩ []).recent).status = 429 :=
  handler_error_keeps_limiter (some "9.9.9.9") none 5000 6000
    (some (.obj [])) (some (.obj [])) (some "k") (some "k")
    ⟨true, "", ""⟩ ⟨true, "", ""⟩ [] (by decide) (Or.inl (by decide))
    (by decide)

/-- Counterexample to C4 as stated: a request body that is the JSON
literal null parses successfully, has no ingredients field, and yet is
answered 500 (the destructuring of null throws), not 400; the outbound
call is still not made. -/
theorem handler_null_body_cex :
    (handler "POST" (some "1.2.3.4") none 5000 (some .null) (some "k")
        ⟨true, "", ""⟩ []).status = 500
    ∧ (handler "POST" (some "1.2.3.4") none 5000 (some .null) (some "k")
        ⟨true, "", ""⟩ []).called = false := by
  constructor <;> rfl

/-- Claim C4 (amended): a POST whose body fails to parse is treated
exactly as the empty object; whenever the (possibly defaulted) body
yields an ingredients value whose sanitized form trims to the empty
string - in particular when the field is absent - the handler answers 400
"Missing ingredients" without calling the provider.  Exception forced by
the counterexample: a body that parses to JSON null makes the
destructuring throw, yielding 500 instead of 400 (still without calling
the provider). -/
theorem handler_missing_ingredients_400 (hci hxff : Option String)
    (now : Nat) (b : Option JsValue) (ing : JsValue) (k : Option String)
    (r : ProviderResp) (m : RecentMap)
    (hallow : (rateLimit (strOr hci (strOr hxff "unknown")) 2500 now m).1 =
      true)
    (hGet : jsGetProp (b.getD (.obj [])) "ingredients" = some ing)
    (hEmpty : strTrim (safeString ing 700) = "") :
    (handler "POST" hci hxff now none k r m =
      handler "POST" hci hxff now (some (.obj [])) k r m)
    ∧ (handler "POST" hci hxff now b k r m).status = 400
    ∧ (handler "POST" hci hxff now b k r m).called = false
    ∧ (handler "POST" hci hxff now b k r m).body =
        .text "Missing ingredients" := by
  have hform : handler "POST" hci hxff now b k r m =
      { status := 400, body := .text "Missing ingredients",
        recent := (rateLimit (strOr hci (strOr hxff "unknown")) 2500 now
          m).2, called := false } := by
    simp only [handler]
    rw [if_neg (by simp)]
    simp only [hallow]
    rw [if_neg (by simp)]
    simp only [hGet]
    rw [if_pos hEmpty]
  exact ⟨rfl, by rw [hform], by rw [hform], by rw [hform]⟩

/-- Witness for C4 at a concrete input: an empty-object body (the shape a
parse failure is coerced to) is answered 400 without an outbound call. -/
theorem handler_missing_ingredients_400_witness :
    (handler "POST" (some "1.2.3.4") none 5000 (some (.obj [])) (some "k")
        ⟨true, "", ""⟩ []).status = 400
    ∧ (handler "POST" (some "1.2.3.4") none 5000 (some (.obj []))
        (some "k") ⟨true, "", ""⟩ []).called = false :=
  let h := handler_missing_ingredients_400 (some "1.2.3.4") none 5000
    (some (.obj [])) .undefined (some "k") ⟨true, "", ""⟩ [] (by decide) rfl rfl
  ⟨h.2.1, h.2.2.1⟩

/-- Claim C10: on the full success path (POST allowed, ingredients
present, key present, provider ok), content parsing to the JSON literal
null yields status 500 (the property reads on null throw), while parsing
to a number, string or boolean yields status 200 with all five fields
empty (property reads give undefined, which sanitizes to empty). -/
theorem handler_primitive_parse (hci hxff : Option String) (now : Nat)
    (b : Option JsValue) (ing : JsValue) (k : Option String)
    (r : ProviderResp) (m : RecentMap)
    (hallow : (rateLimit (strOr hci (strOr hxff "unknown")) 2500 now m).1 =
      true)
    (hGet : jsGetProp (b.getD (.obj [])) "ingredients" = some ing)
    (hNonEmpty : strTrim (safeString ing 700) ≠ "")
    (hKey : jsFalsyStr k = false)
    (hOk : r.ok = true) :
    (parseContent (strTrim r.content) = some .null →
      (handler "POST" hci hxff now b k r m).status = 500)
    ∧ (∀ v, parseContent (strTrim r.content) = some v →
        isPrimLit v = true →
        (handler "POST" hci hxff now b k r m).status = 200 ∧
        (handler "POST" hci hxff now b k r m).body =
          .json { title := "", intro := "", steps := [], optional := [],
                  note := "" }) := by
  have hform : ∀ (pv : JsValue) (res : Option Recipe),
      parseContent (strTrim r.content) = some pv → sanitizeOut pv = res →
      handler "POST" hci hxff now b k r m =
        (match res with
          | none =>
            { status := 500, body := .text "Server error",
              recent := (rateLimit (strOr hci (strOr hxff "unknown")) 2500
                now m).2, called := true }
          | some out =>
            { status := 200, body := .json out,
              recent := (rateLimit (strOr hci (strOr hxff "unknown")) 2500
                now m).2, called := true }) := by
    intro pv res hpc hso
    simp only [handler]
    rw [if_neg (by simp)]
    simp only [hallow]
    rw [if_neg (by simp)]
    simp only [hGet]
    rw [if_neg hNonEmpty]
    simp only [hKey]
    rw [if_neg (by simp)]
    simp only [hOk]
    rw [if_neg (by simp)]
    simp only [hpc, hso]
  constructor
  · intro hnull
    rw [hform .null none hnull rfl]
  · intro v hv hprim
    have hso : sanitizeOut v =
        some (Recipe.mk "" "" [] [] "") := by
      cases v with
      | num n => rfl
      | str s => rfl
      | bool bb => rfl
      | undefined => exact absurd hprim (by simp [isPrimLit])
      | null => exact absurd hprim (by simp [isPrimLit])
      | arr l => exact absurd hprim (by simp [isPrimLit])
      | obj fs => exact absurd hprim (by simp [isPrimLit])
    exact ⟨by rw [hform v _ hv hso], by rw [hform v _ hv hso]⟩

/-- Witness for C10 at concrete inputs: provider content "null" yields
500, provider content "42" yields 200. -/
theorem handler_primitive_parse_witness :
    (handler "POST" (some "1.2.3.4") none 5000
        (some (.obj [("ingredients", .str "eggs")])) (some "k")
        ⟨true, "", "null"⟩ []).status = 500
    ∧ (handler "POST" (some "1.2.3.4") none 5000
        (some (.obj [("ingredients", .str "eggs")])) (some "k")
        ⟨true, "", "42"⟩ []).status = 200 :=
  ⟨(handler_primitive_parse (some "1.2.3.4") none 5000
      (some (.obj [("ingredients", .str "eggs")])) (.str "eggs") (some "k")
      ⟨true, "", "null"⟩ [] (by decide) rfl (by decide) rfl rfl).1 rfl,
   ((handler_primitive_parse (some "1.2.3.4") none 5000
      (some (.obj [("ingredients", .str "eggs")])) (.str "eggs") (some "k")
      ⟨true, "", "42"⟩ [] (by decide) rfl (by decide) rfl rfl).2
      (.num 42) rfl rfl).1⟩

/-- When the text is a brace-free prefix followed by a block that starts
with a left brace and ends the string with a right brace, the regex
fallback extracts exactly that block. -/
theorem extractFallback_append (pre j : String)
    (hpre : pre.data.contains '{' = false)
    (hhead : j.data.head? = some '{')
    (hlast : j.data.getLast? = some '}') :
    extractFallback (pre ++ j) = some j := by
  obtain ⟨jrest, hjd⟩ : ∃ t, j.data = '{' :: t := by
    cases hjn : j.data with
    | nil =>
      rw [hjn] at hhead
      cases hhead
    | cons a t =>
      rw [hjn] at hhead
      injection hhead with ha
      exact ⟨t, by rw [ha]⟩
  have hnotmem : '{' ∉ pre.data := by
    intro hmem
    have h1 : pre.data.contains '{' = true := by
      simpa [List.contains] using hmem
    rw [hpre] at h1
    cases h1
  have hne : j.data ≠ [] := by
    rw [hjd]
    simp
  have hdata : (pre ++ j).data = pre.data ++ j.data := strData_append pre j
  have hmemj : '{' ∈ pre.data ++ j.data := by
    rw [hjd]
    exact List.mem_append_right _ (List.mem_cons_self _ _)
  have hcond : ((pre.data ++ j.data).contains '{' &&
      ((pre.data ++ j.data).getLast? == some '}')) = true := by
    rw [Bool.and_eq_true]
    constructor
    · simpa [List.contains] using hmemj
    · rw [List.getLast?_append_of_ne_nil _ hne, hlast]
      simp
  have hidx : (pre.data ++ j.data).indexOf '{' = pre.data.length := by
    rw [hjd, List.indexOf_append_of_not_mem hnotmem, List.indexOf_cons_self]
    omega
  show (if (pre ++ j).data.contains '{' &&
        ((pre ++ j).data.getLast? == some '}') then
      some (String.mk ((pre ++ j).data.drop ((pre ++ j).data.indexOf '{')))
    else none) = some j
  rw [hdata, if_pos hcond, hidx, List.drop_left, strMk_data]

/-- Claim C3 (amended): when provider content that is not valid JSON ends
in a well-formed JSON block and the text before that block contains no
left brace, the fallback recovers exactly that block and content parsing
yields its value (the brace-free proviso is forced by the counterexample:
the regex match starts at the first left brace of the whole text); and
whenever both the direct parse and the fallback fail, the handler on the
success path answers with the generic 500. -/
theorem parseContent_fallback_spec :
    (∀ (pre j : String) (v : JsValue),
      pre.data.contains '{' = false →
      j.data.head? = some '{' → j.data.getLast? = some '}' →
      jsonParse (pre ++ j) = none → jsonParse j = some v →
      parseContent (pre ++ j) = some v)
    ∧ (∀ (hci hxff : Option String) (now : Nat) (b : Option JsValue)
        (ing : JsValue) (k : Option String) (r : ProviderResp)
        (m : RecentMap),
        (rateLimit (strOr hci (strOr hxff "unknown")) 2500 now m).1 =
          true →
        jsGetProp (b.getD (.obj [])) "ingredients" = some ing →
        strTrim (safeString ing 700) ≠ "" →
        jsFalsyStr k = false → r.ok = true →
        parseContent (strTrim r.content) = none →
        (handler "POST" hci hxff now b k r m).status = 500
        ∧ (handler "POST" hci hxff now b k r m).body =
            .text "Server error") := by
  constructor
  · intro pre j v hpre hhead hlast hfail hj
    simp only [parseContent, hfail]
    rw [extractFallback_append pre j hpre hhead hlast]
    exact hj
  · intro hci hxff now b ing k r m hallow hGet hNonEmpty hKey hOk hpc
    have hform : handler "POST" hci hxff now b k r m =
        { status := 500, body := .text "Server error",
          recent := (rateLimit (strOr hci (strOr hxff "unknown")) 2500 now
            m).2, called := true } := by
      simp only [handler]
      rw [if_neg (by simp)]
      simp only [hallow]
      rw [if_neg (by simp)]
      simp only [hGet]
      rw [if_neg hNonEmpty]
      simp only [hKey]
      rw [if_neg (by simp)]
      simp only [hOk]
      rw [if_neg (by simp)]
      simp only [hpc]
    exact ⟨by rw [hform], by rw [hform]⟩

/-- Counterexample to C3 as stated: the content "xx \x7by\x7d zz
\x7b\"title\":\"ok\"\x7d" is not valid JSON and ends in the well-formed
JSON object \x7b"title":"ok"\x7d embedded in surrounding non-JSON text,
yet the fallback does not recover it: the regex match starts at the
first left brace of the whole text, the matched substring is not valid
JSON, and content parsing fails (the handler would answer 500). -/
theorem parseContent_early_brace_cex :
    ("xx \x7by\x7d zz \x7b\"title\":\"ok\"\x7d" : String) =
      "xx \x7by\x7d zz " ++ "\x7b\"title\":\"ok\"\x7d"
    ∧ jsonParse "\x7b\"title\":\"ok\"\x7d" =
        some (.obj [("title", .str "ok")])
    ∧ jsonParse "xx \x7by\x7d zz \x7b\"title\":\"ok\"\x7d" = none
    ∧ extractFallback "xx \x7by\x7d zz \x7b\"title\":\"ok\"\x7d" =
        some "\x7by\x7d zz \x7b\"title\":\"ok\"\x7d"
    ∧ parseContent "xx \x7by\x7d zz \x7b\"title\":\"ok\"\x7d" = none := by
  refine ⟨rfl, rfl, rfl, rfl, rfl⟩

/-- Witness for C3 at concrete inputs: prose followed by one trailing
JSON object is recovered by the fallback, and brace-free prose drives
the handler to 500. -/
theorem parseContent_fallback_spec_witness :
    parseContent ("Recipe follows: " ++ "\x7b\"title\":\"ok\"\x7d") =
      some (.obj [("title", .str "ok")])
    ∧ (handler "POST" (some "1.2.3.4") none 5000
        (some (.obj [("ingredients", .str "eggs")])) (some "k")
        ⟨true, "", "no json here"⟩ []).status = 500 :=
  ⟨parseContent_fallback_spec.1 "Recipe follows: "
    "\x7b\"title\":\"ok\"\x7d" (.obj [("title", .str "ok")])
    rfl rfl rfl rfl rfl,
   (parseContent_fallback_spec.2 (some "1.2.3.4") none 5000
    (some (.obj [("ingredients", .str "eggs")])) (.str "eggs") (some "k")
    ⟨true, "", "no json here"⟩ [] (by decide) rfl (by decide) rfl rfl
    rfl).1⟩
